import Mathlib

/-!
Verification of the tmkms signing keyring and secure-channel key-derivation
primitives against their natural-language specification.

The definitions below are a shallow embedding of the Rust sources:

* `src/keyring.rs` — the `KeyRing` type and its `add_ecdsa`, `add_ed25519`,
  `default_ed25519_pubkey`, `sign_ecdsa`, `sign_ed25519` operations.
  `BTreeMap` is modelled as an association list keyed by `TendermintKey`;
  `&mut self` methods become state-passing functions returning the updated
  value together with the Rust function's return value.
* `src/hchacha20.rs` — the HChaCha20 subkey-derivation function over
  bytes modelled as `Nat` with explicit reduction modulo `2 ^ 32`.
* `tendermint-rs/src/secret_connection/transcript_hash.rs` — the HKDF-SHA-256
  transcript accumulator, with SHA-256 / HMAC / HKDF embedded concretely.
* `src/keyring/ecdsa/softsign.rs` and `src/config/provider/softsign.rs` —
  the software-backend loader; file I/O, base64 decoding and secp256k1 key
  operations provided by external crates are abstracted as an environment
  of functions.
-/

/-- Error classification kinds. Modelled from the spec (section 7 error
taxonomy: `ConfigError`, `InvalidKey`, `SigningError`); the repository's
`error.rs` is not part of the provided sources. -/
inductive ErrorKind where
  | configError
  | invalidKey
  | signingError
deriving DecidableEq, Repr

/-- An error value: a kind together with the formatted message produced by
the `fail!` / `format_err!` macros. -/
structure Error where
  kind : ErrorKind
  msg : String
deriving DecidableEq, Repr

/-- Identifier of the backend that produced a signer. Modelled from the spec
(software file, HSM, hardware wallet); `keyring/providers.rs` is not part of
the provided sources. -/
inductive SigningProvider where
  | softSign
  | yubihsm
  | ledgerTm
deriving DecidableEq, Repr

/-- Display name of a signing provider, used inside keyring log and error
messages. Modelled from the spec (the provider id appears in messages only
as an identifying label). -/
def SigningProvider.display : SigningProvider → String
  | .softSign => "softsign"
  | .yubihsm => "yubihsm"
  | .ledgerTm => "ledgertm"

/-- An identity-tagged public key with `AccountKey` and `ConsensusKey`
variants, compared by the underlying key bytes (modelled as a list of
byte values). Mirrors `tendermint::TendermintKey` as described by the
data model of the spec. -/
inductive TendermintKey where
  | accountKey (bytes : List Nat)
  | consensusKey (bytes : List Nat)
deriving DecidableEq, Repr

/-- Bech32 display rendering of a public key, used only inside the
"not in keyring" error message. Modelled from the spec: display encoding is
out of the spec's scope, so it is abstracted as a rendering of the key's
bytes after the human-readable prefix. -/
def TendermintKey.to_bech32 (k : TendermintKey) (hrp : String) : String :=
  match k with
  | .accountKey bytes => hrp ++ toString bytes
  | .consensusKey bytes => hrp ++ toString bytes

/-- Key-display formatting configuration held by the keyring (e.g. bech32).
The concrete encodings live outside the provided sources, so the format is
modelled as its `serialize` function (spec section 6: `Format → KeyRing`:
`serialize(TendermintKey) -> String`, used only for display). -/
structure KeyFormatter where
  serialize : TendermintKey → String

/-- A signing capability: backend id, public key, and the signing function
(mirroring the `ecdsa::Signer` / `ed25519::Signer` objects; messages and
signatures are byte lists). -/
structure Signer where
  provider : SigningProvider
  public_key : TendermintKey
  sign : List Nat → Except Error (List Nat)

/-- Association-list model of `BTreeMap<TendermintKey, Signer>` lookup
(`BTreeMap::get`). -/
def mapGet (k : TendermintKey) : List (TendermintKey × Signer) → Option Signer
  | [] => none
  | (k', v') :: t => if k = k' then some v' else mapGet k t

/-- Association-list model of `BTreeMap::insert`: stores `v` under `k`,
replacing and returning any previous value at that key. -/
def mapInsert (k : TendermintKey) (v : Signer) :
    List (TendermintKey × Signer) → List (TendermintKey × Signer) × Option Signer
  | [] => ([(k, v)], none)
  | (k', v') :: t =>
    if k = k' then ((k, v) :: t, some v')
    else
      let r := mapInsert k v t
      ((k', v') :: r.1, r.2)

/-- The signing keyring: ECDSA map, Ed25519 map, and display format
(`KeyRing` in `src/keyring.rs`). -/
structure KeyRing where
  ecdsa_keys : List (TendermintKey × Signer)
  ed25519_keys : List (TendermintKey × Signer)
  format : KeyFormatter

/-- Create a new, empty keyring (`KeyRing::new`). -/
def KeyRing.new (format : KeyFormatter) : KeyRing :=
  { ecdsa_keys := [], ed25519_keys := [], format := format }

/-- Add an ECDSA key to the keyring (`KeyRing::add_ecdsa`). The Rust method
mutates `self` through `BTreeMap::insert` and then fails if a previous value
was present; the state-passing translation returns the updated keyring
together with the optional error. -/
def KeyRing.add_ecdsa (kr : KeyRing) (signer : Signer) : KeyRing × Option Error :=
  let provider := signer.provider
  let public_key := signer.public_key
  let public_key_serialized := kr.format.serialize public_key
  let r := mapInsert public_key signer kr.ecdsa_keys
  let kr' := { kr with ecdsa_keys := r.1 }
  match r.2 with
  | some other =>
    (kr', some { kind := .invalidKey,
                 msg := "[keyring:" ++ provider.display ++ "] duplicate ECDSA key "
                   ++ public_key_serialized ++ " already registered as "
                   ++ other.provider.display })
  | none => (kr', none)

/-- Add an Ed25519 key to the keyring (`KeyRing::add_ed25519`); same
insert-then-check structure as `add_ecdsa` on the Ed25519 map. -/
def KeyRing.add_ed25519 (kr : KeyRing) (signer : Signer) : KeyRing × Option Error :=
  let provider := signer.provider
  let public_key := signer.public_key
  let public_key_serialized := kr.format.serialize public_key
  let r := mapInsert public_key signer kr.ed25519_keys
  let kr' := { kr with ed25519_keys := r.1 }
  match r.2 with
  | some other =>
    (kr', some { kind := .invalidKey,
                 msg := "[keyring:" ++ provider.display ++ "] duplicate Ed25519 key "
                   ++ public_key_serialized ++ " already registered as "
                   ++ other.provider.display })
  | none => (kr', none)

/-- Default Ed25519 public key (`KeyRing::default_ed25519_pubkey`): the sole
key when the Ed25519 map has exactly one entry, and the single
`InvalidKey` "expected only one key in keyring" error otherwise. -/
def KeyRing.default_ed25519_pubkey (kr : KeyRing) : Except Error TendermintKey :=
  let keys := kr.ed25519_keys.map (fun p => p.1)
  if h : keys.length = 1 then
    .ok (keys.head (List.length_pos.mp (by rw [h]; exact Nat.one_pos)))
  else
    .error { kind := .invalidKey, msg := "expected only one key in keyring" }

/-- Sign a message with an ECDSA key (`KeyRing::sign_ecdsa`): explicit key
lookup when a public key is given, sole-key selection otherwise. -/
def KeyRing.sign_ecdsa (kr : KeyRing) (public_key : Option TendermintKey)
    (msg : List Nat) : Except Error (List Nat) :=
  match public_key with
  | some pk =>
    match mapGet pk kr.ecdsa_keys with
    | some signer => signer.sign msg
    | none =>
      .error { kind := .invalidKey, msg := "not in keyring: " ++ pk.to_bech32 "" }
  | none =>
    let vals := kr.ecdsa_keys.map (fun p => p.2)
    if vals.length > 1 then
      .error { kind := .signingError, msg := "expected only one key in keyring" }
    else
      match vals.head? with
      | some signer => signer.sign msg
      | none => .error { kind := .invalidKey, msg := "keyring is empty" }

/-- Sign a message with an Ed25519 key (`KeyRing::sign_ed25519`); same
dispatch structure as `sign_ecdsa` over the Ed25519 map. -/
def KeyRing.sign_ed25519 (kr : KeyRing) (public_key : Option TendermintKey)
    (msg : List Nat) : Except Error (List Nat) :=
  match public_key with
  | some pk =>
    match mapGet pk kr.ed25519_keys with
    | some signer => signer.sign msg
    | none =>
      .error { kind := .invalidKey, msg := "not in keyring: " ++ pk.to_bech32 "" }
  | none =>
    let vals := kr.ed25519_keys.map (fun p => p.2)
    if vals.length > 1 then
      .error { kind := .signingError, msg := "expected only one key in keyring" }
    else
      match vals.head? with
      | some signer => signer.sign msg
      | none => .error { kind := .invalidKey, msg := "keyring is empty" }

theorem mapInsert_snd (k : TendermintKey) (v : Signer)
    (m : List (TendermintKey × Signer)) : (mapInsert k v m).2 = mapGet k m := by
  induction m with
  | nil => rfl
  | cons hd t ih =>
    obtain ⟨k', v'⟩ := hd
    by_cases h : k = k' <;> simp [mapInsert, mapGet, h, ih]

theorem mapGet_insert_self (k : TendermintKey) (v : Signer)
    (m : List (TendermintKey × Signer)) :
    mapGet k (mapInsert k v m).1 = some v := by
  induction m with
  | nil => simp [mapInsert, mapGet]
  | cons hd t ih =>
    obtain ⟨k', v'⟩ := hd
    by_cases h : k = k' <;> simp [mapInsert, mapGet, h, ih]

/-- Display format used by concrete test fixtures. -/
def fmtW : KeyFormatter := { serialize := fun _ => "PK" }

/-- Concrete consensus key used by test fixtures. -/
def pkW : TendermintKey := .consensusKey [1]

/-- A second, distinct concrete consensus key. -/
def pkW2 : TendermintKey := .consensusKey [2]

/-- Software-provider signer fixture holding `pkW`. -/
def s1W : Signer := { provider := .softSign, public_key := pkW, sign := fun m => .ok m }

/-- HSM-provider signer fixture holding the same public key `pkW`. -/
def s2W : Signer := { provider := .yubihsm, public_key := pkW, sign := fun m => .ok m }

/-- Hardware-wallet-provider signer fixture holding `pkW2`. -/
def s3W : Signer := { provider := .ledgerTm, public_key := pkW2, sign := fun m => .ok m }

/-- Keyring fixture with one ECDSA key. -/
def krC1 : KeyRing := { ecdsa_keys := [(pkW, s1W)], ed25519_keys := [], format := fmtW }

/-- Keyring fixture with two ECDSA keys. -/
def krC2 : KeyRing :=
  { ecdsa_keys := [(pkW, s1W), (pkW2, s3W)], ed25519_keys := [], format := fmtW }

/-- Keyring fixture with one Ed25519 key. -/
def krE1 : KeyRing := { ecdsa_keys := [], ed25519_keys := [(pkW, s1W)], format := fmtW }

/-- Keyring fixture with two Ed25519 keys. -/
def krE2 : KeyRing :=
  { ecdsa_keys := [], ed25519_keys := [(pkW, s1W), (pkW2, s3W)], format := fmtW }

/-- C1: counterexample. After registering `s1W` and then a second signer
`s2W` with the same public key, the keyring entry under that key is `s2W`,
not the originally registered `s1W`: `BTreeMap::insert` runs before the
duplicate check, so the failing second call replaces the original entry. -/
theorem c1_counterexample :
    mapGet pkW ((((KeyRing.new fmtW).add_ecdsa s1W).1.add_ecdsa s2W).1.ecdsa_keys) = some s2W
  ∧ mapGet pkW ((((KeyRing.new fmtW).add_ed25519 s1W).1.add_ed25519 s2W).1.ed25519_keys)
      = some s2W
  ∧ s2W ≠ s1W :=
  ⟨rfl, rfl, fun h => nomatch congrArg Signer.provider h⟩

/-- C1 (amended): registering a fresh key succeeds; a second registration
under the same public key fails with the "duplicate ... already registered"
error naming both providers, but the keyring is left holding the second
(duplicate) signer — the insert precedes the check, so the original entry is
replaced despite the error. Holds for both the ECDSA and Ed25519 maps. -/
theorem c1_duplicate_add_replaces (kr : KeyRing) (s1 s2 : Signer)
    (hpk : s2.public_key = s1.public_key)
    (h1 : mapGet s1.public_key kr.ecdsa_keys = none)
    (h2 : mapGet s1.public_key kr.ed25519_keys = none) :
    ((kr.add_ecdsa s1).2 = none
      ∧ mapGet s1.public_key (kr.add_ecdsa s1).1.ecdsa_keys = some s1
      ∧ ((kr.add_ecdsa s1).1.add_ecdsa s2).2 =
          some { kind := .invalidKey,
                 msg := "[keyring:" ++ s2.provider.display ++ "] duplicate ECDSA key "
                   ++ kr.format.serialize s2.public_key ++ " already registered as "
                   ++ s1.provider.display }
      ∧ mapGet s1.public_key ((kr.add_ecdsa s1).1.add_ecdsa s2).1.ecdsa_keys = some s2)
  ∧ ((kr.add_ed25519 s1).2 = none
      ∧ mapGet s1.public_key (kr.add_ed25519 s1).1.ed25519_keys = some s1
      ∧ ((kr.add_ed25519 s1).1.add_ed25519 s2).2 =
          some { kind := .invalidKey,
                 msg := "[keyring:" ++ s2.provider.display ++ "] duplicate Ed25519 key "
                   ++ kr.format.serialize s2.public_key ++ " already registered as "
                   ++ s1.provider.display }
      ∧ mapGet s1.public_key ((kr.add_ed25519 s1).1.add_ed25519 s2).1.ed25519_keys = some s2) := by
  refine ⟨⟨?_, ?_, ?_, ?_⟩, ⟨?_, ?_, ?_, ?_⟩⟩ <;>
    simp [KeyRing.add_ecdsa, KeyRing.add_ed25519, mapInsert_snd, mapGet_insert_self,
      h1, h2, hpk]

/-- C1 (witness): concrete instantiation of the amended duplicate-add
theorem at the fixture signers sharing `pkW`. -/
theorem c1_witness :
    ((KeyRing.new fmtW).add_ecdsa s1W).2 = none
  ∧ mapGet s1W.public_key
      ((((KeyRing.new fmtW).add_ecdsa s1W).1.add_ecdsa s2W).1.ecdsa_keys) = some s2W :=
  ⟨(c1_duplicate_add_replaces (KeyRing.new fmtW) s1W s2W rfl rfl rfl).1.1,
   (c1_duplicate_add_replaces (KeyRing.new fmtW) s1W s2W rfl rfl rfl).1.2.2.2⟩

/-- C2: `sign_ecdsa` / `sign_ed25519` dispatch. With an explicit public key:
unknown keys fail with the "not in keyring" `InvalidKey` error and known keys
delegate to that key's signer. With no public key: an empty map fails with
the "keyring is empty" `InvalidKey` error, a sole entry signs with that
entry's signer, and two or more entries fail with the "expected only one key
in keyring" `SigningError`. -/
theorem c2_sign_dispatch (kr : KeyRing) (pk : TendermintKey) (msg : List Nat) :
    ((mapGet pk kr.ecdsa_keys = none →
        kr.sign_ecdsa (some pk) msg =
          .error { kind := .invalidKey, msg := "not in keyring: " ++ pk.to_bech32 "" })
      ∧ (∀ s, mapGet pk kr.ecdsa_keys = some s →
          kr.sign_ecdsa (some pk) msg = s.sign msg)
      ∧ (kr.ecdsa_keys = [] →
          kr.sign_ecdsa none msg =
            .error { kind := .invalidKey, msg := "keyring is empty" })
      ∧ (∀ p, kr.ecdsa_keys = [p] → kr.sign_ecdsa none msg = p.2.sign msg)
      ∧ (kr.ecdsa_keys.length > 1 →
          kr.sign_ecdsa none msg =
            .error { kind := .signingError, msg := "expected only one key in keyring" }))
  ∧ ((mapGet pk kr.ed25519_keys = none →
        kr.sign_ed25519 (some pk) msg =
          .error { kind := .invalidKey, msg := "not in keyring: " ++ pk.to_bech32 "" })
      ∧ (∀ s, mapGet pk kr.ed25519_keys = some s →
          kr.sign_ed25519 (some pk) msg = s.sign msg)
      ∧ (kr.ed25519_keys = [] →
          kr.sign_ed25519 none msg =
            .error { kind := .invalidKey, msg := "keyring is empty" })
      ∧ (∀ p, kr.ed25519_keys = [p] → kr.sign_ed25519 none msg = p.2.sign msg)
      ∧ (kr.ed25519_keys.length > 1 →
          kr.sign_ed25519 none msg =
            .error { kind := .signingError, msg := "expected only one key in keyring" })) := by
  constructor
  all_goals
    refine ⟨fun h => ?_, fun s h => ?_, fun h => ?_, fun p h => ?_, fun h => ?_⟩ <;>
      simp [KeyRing.sign_ecdsa, KeyRing.sign_ed25519, h]

/-- C2 (witness): concrete instantiations of every case of the signing
dispatch theorem on the empty, one-key and two-key fixtures. -/
theorem c2_sign_dispatch_witness :
    krC1.sign_ecdsa (some pkW2) [5] =
      .error { kind := .invalidKey, msg := "not in keyring: " ++ pkW2.to_bech32 "" }
  ∧ krC1.sign_ecdsa (some pkW) [5] = Except.ok [5]
  ∧ (KeyRing.new fmtW).sign_ecdsa none [5] =
      .error { kind := .invalidKey, msg := "keyring is empty" }
  ∧ krC1.sign_ecdsa none [5] = Except.ok [5]
  ∧ krC2.sign_ecdsa none [5] =
      .error { kind := .signingError, msg := "expected only one key in keyring" }
  ∧ krE1.sign_ed25519 (some pkW2) [5] =
      .error { kind := .invalidKey, msg := "not in keyring: " ++ pkW2.to_bech32 "" }
  ∧ krE1.sign_ed25519 (some pkW) [5] = Except.ok [5]
  ∧ (KeyRing.new fmtW).sign_ed25519 none [5] =
      .error { kind := .invalidKey, msg := "keyring is empty" }
  ∧ krE1.sign_ed25519 none [5] = Except.ok [5]
  ∧ krE2.sign_ed25519 none [5] =
      .error { kind := .signingError, msg := "expected only one key in keyring" } :=
  ⟨(c2_sign_dispatch krC1 pkW2 [5]).1.1 rfl,
   (c2_sign_dispatch krC1 pkW [5]).1.2.1 s1W rfl,
   (c2_sign_dispatch (KeyRing.new fmtW) pkW [5]).1.2.2.1 rfl,
   (c2_sign_dispatch krC1 pkW [5]).1.2.2.2.1 (pkW, s1W) rfl,
   (c2_sign_dispatch krC2 pkW [5]).1.2.2.2.2 (by decide),
   (c2_sign_dispatch krE1 pkW2 [5]).2.1 rfl,
   (c2_sign_dispatch krE1 pkW [5]).2.2.1 s1W rfl,
   (c2_sign_dispatch (KeyRing.new fmtW) pkW [5]).2.2.2.1 rfl,
   (c2_sign_dispatch krE1 pkW [5]).2.2.2.2.1 (pkW, s1W) rfl,
   (c2_sign_dispatch krE2 pkW [5]).2.2.2.2.2 (by decide)⟩

/-- C3: counterexample. `default_ed25519_pubkey` returns the very same
`InvalidKey` "expected only one key in keyring" error for an empty keyring
and for a two-key keyring: there is no separate "empty keyring" message and
no distinct "ambiguous default" error. -/
theorem c3_counterexample :
    (KeyRing.new fmtW).default_ed25519_pubkey =
      .error { kind := .invalidKey, msg := "expected only one key in keyring" }
  ∧ krE2.default_ed25519_pubkey =
      .error { kind := .invalidKey, msg := "expected only one key in keyring" }
  ∧ (KeyRing.new fmtW).ed25519_keys.length = 0
  ∧ krE2.ed25519_keys.length = 2 :=
  ⟨rfl, rfl, rfl, rfl⟩

/-- C3 (amended): `default_ed25519_pubkey` returns the sole registered key
exactly when the Ed25519 map has one entry; in every other case (zero keys
or two-or-more keys alike) it fails with the one shared `InvalidKey`
"expected only one key in keyring" error. -/
theorem c3_default_pubkey (kr : KeyRing) :
    (∀ p, kr.ed25519_keys = [p] → kr.default_ed25519_pubkey = .ok p.1)
  ∧ (kr.ed25519_keys.length ≠ 1 →
      kr.default_ed25519_pubkey =
        .error { kind := .invalidKey, msg := "expected only one key in keyring" }) := by
  refine ⟨fun p h => ?_, fun h => ?_⟩ <;>
    simp [KeyRing.default_ed25519_pubkey, h]

/-- C3 (witness): the amended default-key theorem instantiated on the
one-key and two-key Ed25519 fixtures. -/
theorem c3_default_pubkey_witness :
    krE1.default_ed25519_pubkey = .ok pkW
  ∧ krE2.default_ed25519_pubkey =
      .error { kind := .invalidKey, msg := "expected only one key in keyring" } :=
  ⟨(c3_default_pubkey krE1).1 (pkW, s1W) rfl,
   (c3_default_pubkey krE2).2 (by decide)⟩

/-- Rotate a 32-bit word (represented as a `Nat` below `2 ^ 32`) left by
`n` bits, mirroring `u32::rotate_left`. -/
def rotl32 (x n : Nat) : Nat :=
  ((x <<< n) % 4294967296) ||| (x >>> (32 - n))

/-- Read a little-endian 32-bit word from the byte list `bs` at offset
`off`, mirroring `LE::read_u32`. -/
def leWord (bs : List Nat) (off : Nat) : Nat :=
  bs.getD off 0 + 256 * bs.getD (off + 1) 0 + 65536 * bs.getD (off + 2) 0
    + 16777216 * bs.getD (off + 3) 0

/-- Serialize a 32-bit word to four little-endian bytes, mirroring
`LE::write_u32`. -/
def leBytes (w : Nat) : List Nat :=
  [w % 256, w / 256 % 256, w / 65536 % 256, w / 16777216 % 256]

/-- The `quarter_round!` macro of `src/hchacha20.rs`: loads `a,b,c,d` from
state indices `0+i0`, `4+i1`, `8+i2`, `12+i3`, applies the eight ChaCha
quarter-round operations with wrapping 32-bit addition, and stores the
results back at the same indices. -/
def quarter_round (i0 i1 i2 i3 : Nat) (state : List Nat) : List Nat :=
  let a := state.getD (0 + i0) 0
  let b := state.getD (4 + i1) 0
  let c := state.getD (8 + i2) 0
  let d := state.getD (12 + i3) 0
  let a := (a + b) % 4294967296
  let d := rotl32 (d ^^^ a) 16
  let c := (c + d) % 4294967296
  let b := rotl32 (b ^^^ c) 12
  let a := (a + b) % 4294967296
  let d := rotl32 (d ^^^ a) 8
  let c := (c + d) % 4294967296
  let b := rotl32 (b ^^^ c) 7
  (((state.set (0 + i0) a).set (4 + i1) b).set (8 + i2) c).set (12 + i3) d

/-- One iteration of the round loop in `hchacha20`: four column
quarter-rounds followed by four diagonal quarter-rounds, with the index
arguments of the source's `quarter_round!` invocations. -/
def doubleRound (state : List Nat) : List Nat :=
  quarter_round 3 0 1 2
    (quarter_round 2 3 0 1
      (quarter_round 1 2 3 0
        (quarter_round 0 1 2 3
          (quarter_round 3 3 3 3
            (quarter_round 2 2 2 2
              (quarter_round 1 1 1 1
                (quarter_round 0 0 0 0 state)))))))

/-- The `for _ in 0..10` round loop of `hchacha20`. -/
def chachaRounds : Nat → List Nat → List Nat
  | 0, state => state
  | n + 1, state => chachaRounds n (doubleRound state)

/-- Initial 16-word state of `hchacha20`: the four fixed constants, the
eight little-endian key words, and the four little-endian input words. -/
def hchachaInit (key input : List Nat) : List Nat :=
  [0x61707865, 0x3320646e, 0x79622d32, 0x6b206574]
    ++ (List.range 8).map (fun i => leWord key (i * 4))
    ++ (List.range 4).map (fun i => leWord input (i * 4))

/-- The HChaCha20 function of `src/hchacha20.rs`: builds the initial state,
applies ten double-rounds, and serializes state words 0..3 (first output
loop) and words 12..15 (second output loop, `state[i + 8]` for
`i in 4..8`) in little-endian order, with no add-back of the initial
state. -/
def hchacha20 (key input : List Nat) : List Nat :=
  let state := chachaRounds 10 (hchachaInit key input)
  (List.range 4).flatMap (fun i => leBytes (state.getD i 0))
    ++ (List.range' 4 4).flatMap (fun i => leBytes (state.getD (i + 8) 0))

/-- Reference quarter-round from the spec's words: four 32-bit words
`a,b,c,d` transformed by, in order, `a += b; d = rotl(d^a,16); c += d;
b = rotl(b^c,12); a += b; d = rotl(d^a,8); c += d; b = rotl(b^c,7)` with
wrap-on-overflow addition. -/
def specQuarterRound (a b c d : Nat) : Nat × Nat × Nat × Nat :=
  let a := (a + b) % 4294967296
  let d := rotl32 (d ^^^ a) 16
  let c := (c + d) % 4294967296
  let b := rotl32 (b ^^^ c) 12
  let a := (a + b) % 4294967296
  let d := rotl32 (d ^^^ a) 8
  let c := (c + d) % 4294967296
  let b := rotl32 (b ^^^ c) 7
  (a, b, c, d)

/-- Apply the spec's quarter-round to the state words at the four absolute
positions `p0 p1 p2 p3`. -/
def specApplyQR (p0 p1 p2 p3 : Nat) (state : List Nat) : List Nat :=
  let r := specQuarterRound (state.getD p0 0) (state.getD p1 0)
    (state.getD p2 0) (state.getD p3 0)
  (((state.set p0 r.1).set p1 r.2.1).set p2 r.2.2.1).set p3 r.2.2.2

/-- Reference double-round from the spec's words: four column quarter-rounds
over word positions (0,4,8,12),(1,5,9,13),(2,6,10,14),(3,7,11,15) — the
quadruples (0,0,0,0),(1,1,1,1),(2,2,2,2),(3,3,3,3) — then four diagonal
quarter-rounds over (0,5,10,15),(1,6,11,12),(2,7,8,13),(3,4,9,14) — the
quadruples (0,1,2,3),(1,2,3,0),(2,3,0,1),(3,0,1,2). -/
def specDoubleRound (state : List Nat) : List Nat :=
  specApplyQR 3 4 9 14
    (specApplyQR 2 7 8 13
      (specApplyQR 1 6 11 12
        (specApplyQR 0 5 10 15
          (specApplyQR 3 7 11 15
            (specApplyQR 2 6 10 14
              (specApplyQR 1 5 9 13
                (specApplyQR 0 4 8 12 state)))))))

/-- Ten iterated reference double-rounds. -/
def specRounds : Nat → List Nat → List Nat
  | 0, state => state
  | n + 1, state => specRounds n (specDoubleRound state)

/-- Reference initial state from the spec's words: words 0-3 are the
"expand 32-byte k" ASCII constant split into little-endian 32-bit words,
words 4-11 the little-endian key words, words 12-15 the little-endian input
words. -/
def specInitState (key input : List Nat) : List Nat :=
  (List.range 4).map (fun i => leWord ("expand 32-byte k".data.map Char.toNat) (i * 4))
    ++ (List.range 8).map (fun i => leWord key (i * 4))
    ++ (List.range 4).map (fun i => leWord input (i * 4))

/-- Reference HChaCha20 from the spec's words: after 10 double-rounds the
output is the little-endian serialization of state words
[0,1,2,3,12,13,14,15], with no add-back of the initial state. -/
def hchacha20_spec (key input : List Nat) : List Nat :=
  let state := specRounds 10 (specInitState key input)
  ([0, 1, 2, 3, 12, 13, 14, 15] : List Nat).flatMap (fun i => leBytes (state.getD i 0))

theorem quarter_round_eq_spec (i0 i1 i2 i3 : Nat) (state : List Nat) :
    quarter_round i0 i1 i2 i3 state =
      specApplyQR (0 + i0) (4 + i1) (8 + i2) (12 + i3) state := rfl

theorem doubleRound_eq_spec (state : List Nat) :
    doubleRound state = specDoubleRound state := by
  simp only [doubleRound, specDoubleRound, quarter_round_eq_spec]

theorem chachaRounds_eq_spec (n : Nat) (state : List Nat) :
    chachaRounds n state = specRounds n state := by
  induction n generalizing state with
  | zero => rfl
  | succ n ih =>
    simp only [chachaRounds, specRounds]
    rw [doubleRound_eq_spec, ih]

theorem hchachaInit_eq_spec (key input : List Nat) :
    hchachaInit key input = specInitState key input := rfl

theorem hchachaOut_eq_spec (state : List Nat) :
    (List.range 4).flatMap (fun i => leBytes (state.getD i 0))
      ++ (List.range' 4 4).flatMap (fun i => leBytes (state.getD (i + 8) 0)) =
    ([0, 1, 2, 3, 12, 13, 14, 15] : List Nat).flatMap (fun i => leBytes (state.getD i 0)) := by
  have h1 : List.range 4 = [0, 1, 2, 3] := rfl
  have h2 : List.range' 4 4 = [4, 5, 6, 7] := rfl
  rw [h1, h2]
  simp [leBytes]

/-- C4: the source `hchacha20` agrees with the reference HChaCha20
definition assembled from the spec's words (constants, key and input word
layout, ten double-rounds of column-then-diagonal quarter-rounds with the
specified operation sequence, and direct serialization of words
[0,1,2,3,12,13,14,15] without add-back). -/
theorem c4_hchacha20_matches_reference (key input : List Nat) :
    hchacha20 key input = hchacha20_spec key input := by
  unfold hchacha20 hchacha20_spec
  rw [hchachaInit_eq_spec, chachaRounds_eq_spec]
  exact hchachaOut_eq_spec (specRounds 10 (specInitState key input))

set_option maxRecDepth 100000 in
/-- C5: the published HChaCha20 conformance vector. Applying `hchacha20` to
the key 00 01 .. 1f and the 16-byte input 00 00 00 09 00 00 00 4a 00 00 00
00 31 41 59 27 yields exactly the expected 32-byte output. -/
theorem c5_hchacha20_test_vector :
    hchacha20
      [0x00, 0x01, 0x02, 0x03, 0x04, 0x05, 0x06, 0x07, 0x08, 0x09, 0x0a, 0x0b,
       0x0c, 0x0d, 0x0e, 0x0f, 0x10, 0x11, 0x12, 0x13, 0x14, 0x15, 0x16, 0x17,
       0x18, 0x19, 0x1a, 0x1b, 0x1c, 0x1d, 0x1e, 0x1f]
      [0x00, 0x00, 0x00, 0x09, 0x00, 0x00, 0x00, 0x4a, 0x00, 0x00, 0x00, 0x00,
       0x31, 0x41, 0x59, 0x27] =
    [0x82, 0x41, 0x3b, 0x42, 0x27, 0xb2, 0x7b, 0xfe, 0xd3, 0x0e, 0x42, 0x50,
     0x8a, 0x87, 0x7d, 0x73, 0xa0, 0xf9, 0xe4, 0xd5, 0x8a, 0x74, 0xa8, 0x53,
     0xc1, 0x2e, 0xc4, 0x13, 0x26, 0xd3, 0xec, 0xdc] := by
  decide

/-- Rotate a 32-bit word right by `n` bits. -/
def rotr32 (x n : Nat) : Nat :=
  (x >>> n) ||| ((x <<< (32 - n)) % 4294967296)

/-- Read a big-endian 32-bit word from the byte list `bs` at offset `off`
(SHA-256 processes message words big-endian). -/
def beWord (bs : List Nat) (off : Nat) : Nat :=
  16777216 * bs.getD off 0 + 65536 * bs.getD (off + 1) 0
    + 256 * bs.getD (off + 2) 0 + bs.getD (off + 3) 0

/-- Serialize a 32-bit word to four big-endian bytes. -/
def beBytes4 (w : Nat) : List Nat :=
  [w / 16777216 % 256, w / 65536 % 256, w / 256 % 256, w % 256]

/-- Serialize a 64-bit value to eight big-endian bytes (the SHA-256 length
field). -/
def beBytes8 (n : Nat) : List Nat :=
  beBytes4 (n / 4294967296) ++ beBytes4 (n % 4294967296)

/-- The SHA-256 round constants. -/
def sha256K : List Nat :=
  [1116352408, 1899447441, 3049323471, 3921009573, 961987163, 1508970993,
   2453635748, 2870763221, 3624381080, 310598401, 607225278, 1426881987,
   1925078388, 2162078206, 2614888103, 3248222580, 3835390401, 4022224774,
   264347078, 604807628, 770255983, 1249150122, 1555081692, 1996064986,
   2554220882, 2821834349, 2952996808, 3210313671, 3336571891, 3584528711,
   113926993, 338241895, 666307205, 773529912, 1294757372, 1396182291,
   1695183700, 1986661051, 2177026350, 2456956037, 2730485921, 2820302411,
   3259730800, 3345764771, 3516065817, 3600352804, 4094571909, 275423344,
   430227734, 506948616, 659060556, 883997877, 958139571, 1322822218,
   1537002063, 1747873779, 1955562222, 2024104815, 2227730452, 2361852424,
   2428436474, 2756734187, 3204031479, 3329325298]

/-- Working state of the SHA-256 compression function: eight 32-bit words. -/
structure Sha8 where
  a : Nat
  b : Nat
  c : Nat
  d : Nat
  e : Nat
  f : Nat
  g : Nat
  h : Nat
deriving DecidableEq, Repr

/-- The SHA-256 initial hash value. -/
def sha256H0 : Sha8 :=
  { a := 0x6a09e667, b := 0xbb67ae85, c := 0x3c6ef372, d := 0xa54ff53a,
    e := 0x510e527f, f := 0x9b05688c, g := 0x1f83d9ab, h := 0x5be0cd19 }

/-- Rolling 16-word window of the SHA-256 message schedule (`W[t]` through
`W[t+15]` at round `t`). -/
structure Sha16 where
  w0 : Nat
  w1 : Nat
  w2 : Nat
  w3 : Nat
  w4 : Nat
  w5 : Nat
  w6 : Nat
  w7 : Nat
  w8 : Nat
  w9 : Nat
  w10 : Nat
  w11 : Nat
  w12 : Nat
  w13 : Nat
  w14 : Nat
  w15 : Nat

/-- One SHA-256 compression round. -/
def sha256Round (st : Sha8) (k w : Nat) : Sha8 :=
  let s1 := rotr32 st.e 6 ^^^ rotr32 st.e 11 ^^^ rotr32 st.e 25
  let ch := (st.e &&& st.f) ^^^ ((st.e ^^^ 4294967295) &&& st.g)
  let t1 := (st.h + s1 + ch + k + w) % 4294967296
  let s0 := rotr32 st.a 2 ^^^ rotr32 st.a 13 ^^^ rotr32 st.a 22
  let mj := (st.a &&& st.b) ^^^ (st.a &&& st.c) ^^^ (st.b &&& st.c)
  let t2 := (s0 + mj) % 4294967296
  { a := (t1 + t2) % 4294967296, b := st.a, c := st.b, d := st.c,
    e := (st.d + t1) % 4294967296, f := st.e, g := st.f, h := st.g }

/-- Run the 64 compression rounds, consuming one round constant per step
and advancing the schedule window by one freshly extended word
(`W[t+16] = W[t] + s0(W[t+1]) + W[t+9] + s1(W[t+14])`). -/
def sha256Loop : List Nat → Sha8 → Sha16 → Sha8
  | [], st, _ => st
  | k :: krest, st, w =>
    let st' := sha256Round st k w.w0
    let s0 := rotr32 w.w1 7 ^^^ rotr32 w.w1 18 ^^^ (w.w1 >>> 3)
    let s1 := rotr32 w.w14 17 ^^^ rotr32 w.w14 19 ^^^ (w.w14 >>> 10)
    let w16 := (w.w0 + s0 + w.w9 + s1) % 4294967296
    sha256Loop krest st'
      { w0 := w.w1, w1 := w.w2, w2 := w.w3, w3 := w.w4, w4 := w.w5, w5 := w.w6,
        w6 := w.w7, w7 := w.w8, w8 := w.w9, w9 := w.w10, w10 := w.w11,
        w11 := w.w12, w12 := w.w13, w13 := w.w14, w14 := w.w15, w15 := w16 }

/-- Compress one 64-byte block into the running hash value. -/
def sha256Compress (hs : Sha8) (block : List Nat) : Sha8 :=
  let w : Sha16 :=
    { w0 := beWord block 0, w1 := beWord block 4, w2 := beWord block 8,
      w3 := beWord block 12, w4 := beWord block 16, w5 := beWord block 20,
      w6 := beWord block 24, w7 := beWord block 28, w8 := beWord block 32,
      w9 := beWord block 36, w10 := beWord block 40, w11 := beWord block 44,
      w12 := beWord block 48, w13 := beWord block 52, w14 := beWord block 56,
      w15 := beWord block 60 }
  let st := sha256Loop sha256K hs w
  { a := (hs.a + st.a) % 4294967296, b := (hs.b + st.b) % 4294967296,
    c := (hs.c + st.c) % 4294967296, d := (hs.d + st.d) % 4294967296,
    e := (hs.e + st.e) % 4294967296, f := (hs.f + st.f) % 4294967296,
    g := (hs.g + st.g) % 4294967296, h := (hs.h + st.h) % 4294967296 }

/-- Compress `n` consecutive 64-byte blocks. -/
def sha256Blocks : Nat → Sha8 → List Nat → Sha8
  | 0, hs, _ => hs
  | n + 1, hs, l => sha256Blocks n (sha256Compress hs (l.take 64)) (l.drop 64)

/-- SHA-256 padding: append 0x80, zero bytes to 56 mod 64, and the 64-bit
big-endian bit length. -/
def sha256Pad (msg : List Nat) : List Nat :=
  msg ++ [128] ++ List.replicate ((64 - (msg.length + 9) % 64) % 64) 0
    ++ beBytes8 (8 * msg.length)

/-- Serialize a hash value to its 32 output bytes. -/
def sha8Bytes (hs : Sha8) : List Nat :=
  beBytes4 hs.a ++ beBytes4 hs.b ++ beBytes4 hs.c ++ beBytes4 hs.d
    ++ beBytes4 hs.e ++ beBytes4 hs.f ++ beBytes4 hs.g ++ beBytes4 hs.h

/-- The SHA-256 hash of a byte list. -/
def sha256 (msg : List Nat) : List Nat :=
  let padded := sha256Pad msg
  sha8Bytes (sha256Blocks (padded.length / 64) sha256H0 padded)

/-- HMAC-SHA-256 (RFC 2104): keys longer than the 64-byte block are hashed
first, then zero-padded; inner pad 0x36, outer pad 0x5c. -/
def hmacSha256 (key msg : List Nat) : List Nat :=
  let k0 := if key.length > 64 then sha256 key else key
  let kp := k0 ++ List.replicate (64 - k0.length) 0
  sha256 ((kp.map (fun b => b ^^^ 0x5c))
    ++ sha256 ((kp.map (fun b => b ^^^ 0x36)) ++ msg))

/-- HKDF-Extract (RFC 5869): `PRK = HMAC-Hash(salt, IKM)`. The Rust
`Hkdf::<Sha256>::extract(None, ikm)` call uses a zero-filled salt of the
hash length, which HMAC zero-pads to the block size exactly as it pads the
empty salt, so `extract(None, ikm)` coincides with `hkdfExtract [] ikm`. -/
def hkdfExtract (salt ikm : List Nat) : List Nat :=
  hmacSha256 salt ikm

/-- The i-th HKDF-Expand output block:
`T(i) = HMAC(PRK, T(i-1) || info || [i])`, `T(0)` empty. -/
def hkdfTBlock (prk info : List Nat) : Nat → List Nat
  | 0 => []
  | i + 1 => hmacSha256 prk (hkdfTBlock prk info i ++ info ++ [i + 1])

/-- HKDF-Expand (RFC 5869): the first `len` bytes of `T(1) || T(2) || ...`. -/
def hkdfExpand (prk info : List Nat) (len : Nat) : List Nat :=
  ((List.range ((len + 31) / 32)).flatMap (fun i => hkdfTBlock prk info (i + 1))).take len

/-- The fixed HKDF domain string
`TENDERMINT_SECRET_CONNECTION_TRANSCRIPT_HASH` as bytes. -/
def hkdfInfoBytes : List Nat :=
  "TENDERMINT_SECRET_CONNECTION_TRANSCRIPT_HASH".data.map Char.toNat

/-- The fixed initialization label `INIT_HANDSHAKE` as bytes. -/
def transcriptHashInitBytes : List Nat :=
  "INIT_HANDSHAKE".data.map Char.toNat

/-- The transcript accumulator of
`tendermint-rs/src/secret_connection/transcript_hash.rs`: a 32-byte rolling
state. -/
structure TranscriptHash where
  hash_state : List Nat
deriving DecidableEq, Repr

/-- Transcript initialization (`TranscriptHash::init`): expand the extract
of the fixed `INIT_HANDSHAKE` label under the fixed domain string to 32
bytes. -/
def TranscriptHash.init : TranscriptHash :=
  { hash_state := hkdfExpand (hkdfExtract [] transcriptHashInitBytes) hkdfInfoBytes 32 }

/-- Transcript update (`TranscriptHash::update`): replace the state with the
32-byte expand of the extract keyed by the current state over `data`; the
returned accumulator is the continuation (`&mut Self` chaining). -/
def TranscriptHash.update (th : TranscriptHash) (data : List Nat) : TranscriptHash :=
  { hash_state := hkdfExpand (hkdfExtract th.hash_state data) hkdfInfoBytes 32 }

/-- Transcript state read-out (`TranscriptHash::extract`): a clone of the
current state together with the unmodified accumulator (the Rust method
takes `&mut self` but only reads). -/
def TranscriptHash.extract (th : TranscriptHash) : List Nat × TranscriptHash :=
  (th.hash_state, th)

theorem sha8Bytes_length (hs : Sha8) : (sha8Bytes hs).length = 32 := by
  simp [sha8Bytes, beBytes4]

theorem sha256_length (msg : List Nat) : (sha256 msg).length = 32 :=
  sha8Bytes_length _

theorem hmacSha256_length (key msg : List Nat) : (hmacSha256 key msg).length = 32 :=
  sha256_length _

theorem hkdfExpand32_length (prk info : List Nat) :
    (hkdfExpand prk info 32).length = 32 := by
  have h : List.range ((32 + 31) / 32) = [0] := rfl
  simp [hkdfExpand, h, hkdfTBlock, hmacSha256_length]

/-- C6: `TranscriptHash::init` produces exactly
`HKDF-Expand(HKDF-Extract(salt = empty, ikm = "INIT_HANDSHAKE"), info =
domain string, 32)`, and `TranscriptHash::update` replaces the state with
`HKDF-Expand(HKDF-Extract(salt = current state, ikm = data), info = domain
string, 32)`, returning the updated accumulator for chaining; both states
are 32 bytes long. -/
theorem c6_transcript_hkdf_chain :
    TranscriptHash.init.hash_state =
      hkdfExpand (hkdfExtract [] transcriptHashInitBytes) hkdfInfoBytes 32
  ∧ (∀ th data, (TranscriptHash.update th data).hash_state =
      hkdfExpand (hkdfExtract th.hash_state data) hkdfInfoBytes 32)
  ∧ TranscriptHash.init.hash_state.length = 32
  ∧ (∀ th data, ((TranscriptHash.update th data).hash_state.length = 32)) :=
  ⟨rfl, fun _ _ => rfl, hkdfExpand32_length _ _, fun _ _ => hkdfExpand32_length _ _⟩

/-- A step of an interleaved transcript session: either fold in a message
(`update`) or read the current state (`extract`). -/
inductive TranscriptOp where
  | upd (data : List Nat)
  | ext

/-- Run a sequence of transcript operations, collecting every value
returned by `extract` along the way. -/
def runTranscript : TranscriptHash → List TranscriptOp → TranscriptHash × List (List Nat)
  | th, [] => (th, [])
  | th, .upd data :: rest => runTranscript (th.update data) rest
  | th, .ext :: rest =>
    let r := th.extract
    let s := runTranscript r.2 rest
    (s.1, r.1 :: s.2)

theorem runTranscript_append (th : TranscriptHash) (xs ys : List TranscriptOp) :
    runTranscript th (xs ++ ys) =
      ((runTranscript (runTranscript th xs).1 ys).1,
       (runTranscript th xs).2 ++ (runTranscript (runTranscript th xs).1 ys).2) := by
  induction xs generalizing th with
  | nil => simp [runTranscript]
  | cons op rest ih =>
    cases op with
    | upd data => simp [runTranscript, ih]
    | ext => simp [runTranscript, TranscriptHash.extract, ih]

/-- C7: `extract` returns a copy of the current 32-byte state and leaves the
accumulator unchanged; inserting an `extract` anywhere in an operation
sequence changes neither the final state nor the values returned by later
`extract` calls — the inserted call merely reports the state reached after
the preceding operations. -/
theorem c7_extract_no_mutation (th : TranscriptHash) (pre post : List TranscriptOp) :
    th.extract = (th.hash_state, th)
  ∧ (runTranscript th (pre ++ TranscriptOp.ext :: post)).1 =
      (runTranscript th (pre ++ post)).1
  ∧ (runTranscript th (pre ++ TranscriptOp.ext :: post)).2 =
      (runTranscript th pre).2 ++ (runTranscript th pre).1.hash_state ::
        (runTranscript (runTranscript th pre).1 post).2
  ∧ (runTranscript th (pre ++ post)).2 =
      (runTranscript th pre).2 ++ (runTranscript (runTranscript th pre).1 post).2 := by
  refine ⟨rfl, ?_, ?_, ?_⟩ <;>
    simp [runTranscript_append, runTranscript, TranscriptHash.extract]

/-- Fold a message sequence into a fresh transcript accumulator. -/
def transcriptFold (msgs : List (List Nat)) : TranscriptHash :=
  msgs.foldl TranscriptHash.update TranscriptHash.init

set_option maxRecDepth 1000000 in
theorem transcriptInit_val :
    TranscriptHash.init =
      { hash_state := [212, 30, 43, 56, 167, 41, 120, 42, 90, 109, 38, 9, 206, 83, 145, 208,
       158, 14, 41, 125, 79, 191, 220, 236, 128, 15, 77, 87, 107, 155, 76, 162] } := by
  rfl

set_option maxRecDepth 1000000 in
theorem transcriptStep_0 :
    TranscriptHash.update
      { hash_state := [212, 30, 43, 56, 167, 41, 120, 42, 90, 109, 38, 9, 206, 83, 145, 208,
       158, 14, 41, 125, 79, 191, 220, 236, 128, 15, 77, 87, 107, 155, 76, 162] } [0] =
      { hash_state := [37, 255, 13, 247, 204, 204, 220, 85, 94, 203, 173, 45, 237, 163, 131, 120,
       132, 69, 42, 79, 143, 124, 255, 211, 206, 169, 236, 93, 151, 138, 110, 50] } := by
  rfl

set_option maxRecDepth 1000000 in
theorem transcriptStep_1 :
    TranscriptHash.update
      { hash_state := [212, 30, 43, 56, 167, 41, 120, 42, 90, 109, 38, 9, 206, 83, 145, 208,
       158, 14, 41, 125, 79, 191, 220, 236, 128, 15, 77, 87, 107, 155, 76, 162] } [1] =
      { hash_state := [14, 123, 53, 79, 90, 233, 125, 128, 184, 212, 14, 157, 74, 4, 223, 198,
       128, 30, 189, 90, 144, 216, 185, 44, 225, 67, 31, 12, 12, 254, 101, 56] } := by
  rfl

set_option maxRecDepth 1000000 in
theorem transcriptStep_01 :
    TranscriptHash.update
      { hash_state := [37, 255, 13, 247, 204, 204, 220, 85, 94, 203, 173, 45, 237, 163, 131, 120,
       132, 69, 42, 79, 143, 124, 255, 211, 206, 169, 236, 93, 151, 138, 110, 50] } [1] =
      { hash_state := [111, 240, 195, 210, 227, 94, 90, 14, 195, 238, 115, 238, 60, 124, 173, 23,
       245, 23, 87, 15, 170, 175, 8, 76, 127, 25, 253, 218, 64, 1, 198, 8] } := by
  rfl

set_option maxRecDepth 1000000 in
theorem transcriptStep_10 :
    TranscriptHash.update
      { hash_state := [14, 123, 53, 79, 90, 233, 125, 128, 184, 212, 14, 157, 74, 4, 223, 198,
       128, 30, 189, 90, 144, 216, 185, 44, 225, 67, 31, 12, 12, 254, 101, 56] } [0] =
      { hash_state := [243, 97, 185, 215, 160, 242, 43, 26, 224, 78, 196, 213, 139, 157, 130, 27,
       114, 80, 110, 82, 142, 100, 93, 16, 229, 85, 210, 88, 247, 96, 140, 31] } := by
  rfl

set_option maxRecDepth 1000000 in
theorem transcriptStep_012 :
    TranscriptHash.update
      { hash_state := [111, 240, 195, 210, 227, 94, 90, 14, 195, 238, 115, 238, 60, 124, 173, 23,
       245, 23, 87, 15, 170, 175, 8, 76, 127, 25, 253, 218, 64, 1, 198, 8] } [2] =
      { hash_state := [62, 4, 172, 200, 63, 70, 11, 181, 237, 123, 25, 26, 163, 150, 109, 198,
       40, 116, 145, 122, 195, 226, 230, 187, 115, 112, 160, 229, 66, 22, 236, 93] } := by
  rfl

theorem transcriptFold_01 :
    transcriptFold [[0], [1]] =
      { hash_state := [111, 240, 195, 210, 227, 94, 90, 14, 195, 238, 115, 238, 60, 124, 173, 23,
       245, 23, 87, 15, 170, 175, 8, 76, 127, 25, 253, 218, 64, 1, 198, 8] } := by
  show TranscriptHash.update (TranscriptHash.update TranscriptHash.init [0]) [1] = _
  rw [transcriptInit_val, transcriptStep_0, transcriptStep_01]

theorem transcriptFold_10 :
    transcriptFold [[1], [0]] =
      { hash_state := [243, 97, 185, 215, 160, 242, 43, 26, 224, 78, 196, 213, 139, 157, 130, 27,
       114, 80, 110, 82, 142, 100, 93, 16, 229, 85, 210, 88, 247, 96, 140, 31] } := by
  show TranscriptHash.update (TranscriptHash.update TranscriptHash.init [1]) [0] = _
  rw [transcriptInit_val, transcriptStep_1, transcriptStep_10]

theorem transcriptFold_0 :
    transcriptFold [[0]] =
      { hash_state := [37, 255, 13, 247, 204, 204, 220, 85, 94, 203, 173, 45, 237, 163, 131, 120,
       132, 69, 42, 79, 143, 124, 255, 211, 206, 169, 236, 93, 151, 138, 110, 50] } := by
  show TranscriptHash.update TranscriptHash.init [0] = _
  rw [transcriptInit_val, transcriptStep_0]

theorem transcriptFold_012 :
    transcriptFold [[0], [1], [2]] =
      { hash_state := [62, 4, 172, 200, 63, 70, 11, 181, 237, 123, 25, 26, 163, 150, 109, 198,
       40, 116, 145, 122, 195, 226, 230, 187, 115, 112, 160, 229, 66, 22, 236, 93] } := by
  show TranscriptHash.update (TranscriptHash.update
    (TranscriptHash.update TranscriptHash.init [0]) [1]) [2] = _
  rw [transcriptInit_val, transcriptStep_0, transcriptStep_01, transcriptStep_012]

/-- C8: counterexample. The claimed order-sensitivity is quantified over all
messages A, B, C; taking A = B = the one-byte message 0x00 makes the update
sequences [A, B] and [B, A] identical, so their final states are equal and
the claimed inequality fails at that input. -/
theorem c8_counterexample :
    ¬ ((transcriptFold [[0], [0]]).hash_state ≠ (transcriptFold [[0], [0]]).hash_state) :=
  fun h => h rfl

/-- C8 (amended): order- and length-sensitivity cannot hold for all message
choices (it fails whenever A = B); for the concrete distinct messages
A = 0x00, B = 0x01, C = 0x02 the final state after folding [A, B] differs
from the states after folding [B, A], after folding [A] alone, and after
folding [A, B, C]. -/
theorem c8_order_sensitivity_concrete :
    (transcriptFold [[0], [1]]).hash_state ≠ (transcriptFold [[1], [0]]).hash_state
  ∧ (transcriptFold [[0], [1]]).hash_state ≠ (transcriptFold [[0]]).hash_state
  ∧ (transcriptFold [[0], [1]]).hash_state ≠ (transcriptFold [[0], [1], [2]]).hash_state := by
  rw [transcriptFold_01, transcriptFold_10, transcriptFold_0, transcriptFold_012]
  refine ⟨by decide, by decide, by decide⟩

/-- Private key file format (`KeyFormat` in `src/config/provider/softsign.rs`):
raw binary, base64 text, or JSON. -/
inductive KeyFormat where
  | raw
  | base64
  | json
deriving DecidableEq, Repr

/-- String describing a key format (`KeyFormat::as_str`, also its `Display`). -/
def KeyFormat.as_str : KeyFormat → String
  | .raw => "raw"
  | .base64 => "base64"
  | .json => "json"

/-- Software signer configuration entry (`SoftsignConfig`): authorized chain
ids, optional key format, and the key file path. -/
structure SoftsignConfig where
  chain_ids : List String
  key_format : Option KeyFormat
  path : String

/-- A chain registry entry. Modelled from the spec (section 6): the chain
state exposes its `KeyRing`; the `chain` module is not part of the provided
sources. -/
structure Chain where
  keyring : KeyRing

/-- Registry lookup. Modelled from the spec:
`get_chain_mut(chain_id) -> Result<&mut ChainState, Error>`, failing when
the chain id is unknown; the registry is an association list from chain id
to chain state. -/
def regGet : List (String × Chain) → String → Option Chain
  | [], _ => none
  | (i, c) :: t, cid => if i = cid then some c else regGet t cid

/-- Registry update at an existing chain id (the write-back of a mutation
performed through `get_chain_mut`); ids that are absent are left alone.
Modelled from the spec alongside `regGet`. -/
def regSet : List (String × Chain) → String → Chain → List (String × Chain)
  | [], _, _ => []
  | (i, c) :: t, cid, ch => if i = cid then (i, ch) :: t else (i, c) :: regSet t cid ch

/-- Drop trailing whitespace from a string (`str::trim_end`). -/
def trimEndStr (s : String) : String :=
  String.mk ((s.data.reverse.dropWhile Char.isWhitespace).reverse)

/-- External operations used by the software-backend loader and provided by
outside crates (file system reads, base64 decoding, secp256k1 secret-key
parsing, public-key derivation, and the ECDSA signing function), abstracted
as an environment of functions. -/
structure SoftsignEnv where
  readFile : String → Except String String
  base64Decode : String → Except String (List Nat)
  secretFromBytes : List Nat → Except String (List Nat)
  pubkeyOf : List Nat → Except Unit (List Nat)
  signWith : List Nat → List Nat → Except Error (List Nat)

/-- The registration loop at the end of `init`
(`src/keyring/ecdsa/softsign.rs` lines 88-95): for each configured chain id,
look the chain up in the registry and `add_ecdsa` a clone of the signer into
its keyring, stopping at the first failure; registry mutations made by
earlier iterations (and by the failing `add_ecdsa` itself) are kept. -/
def registerChains (signer : Signer) :
    List (String × Chain) → List String → List (String × Chain) × Option Error
  | reg, [] => (reg, none)
  | reg, cid :: rest =>
    match regGet reg cid with
    | none => (reg, some { kind := .configError, msg := "unknown chain id: " ++ cid })
    | some chain =>
      let r := chain.keyring.add_ecdsa signer
      let reg' := regSet reg cid { keyring := r.1 }
      match r.2 with
      | some e => (reg', some e)
      | none => registerChains signer reg' rest

/-- The software-backed ECDSA loader (`init` in
`src/keyring/ecdsa/softsign.rs`): zero entries succeed as a no-op, more
than one entry is a configuration error, any key format other than base64
(including the default raw) is a configuration error naming the format and
path, and otherwise the file is read, trimmed, base64-decoded and parsed
into a secret key whose derived consensus public key is registered under
every configured chain id. -/
def softsignInit (env : SoftsignEnv) (reg : List (String × Chain))
    (configs : List SoftsignConfig) : List (String × Chain) × Option Error :=
  match configs with
  | [] => (reg, none)
  | [config] =>
    let key_format := config.key_format.getD KeyFormat.raw
    match key_format with
    | .base64 =>
      match env.readFile config.path with
      | .error e =>
        (reg, some { kind := .configError,
                     msg := "couldn't read key from " ++ config.path ++ ": " ++ e })
      | .ok contents =>
        match env.base64Decode (trimEndStr contents) with
        | .error e =>
          (reg, some { kind := .configError,
                       msg := "can't decode key from " ++ config.path ++ ": " ++ e })
        | .ok bytes =>
          match env.secretFromBytes bytes with
          | .error e =>
            (reg, some { kind := .configError,
                         msg := "can't decode key from " ++ config.path ++ ": " ++ e })
          | .ok sk =>
            match env.pubkeyOf sk with
            | .error _ => (reg, some { kind := .invalidKey, msg := "" })
            | .ok pkBytes =>
              registerChains
                { provider := .softSign, public_key := .consensusKey pkBytes,
                  sign := env.signWith sk }
                reg config.chain_ids
    | other =>
      (reg, some { kind := .configError,
                   msg := "unsupported encoding `" ++ other.as_str
                     ++ "` for ECDSA key: " ++ config.path })
  | cs =>
    (reg, some { kind := .configError,
                 msg := "expected one [providers.softsign] in config, found: "
                   ++ toString cs.length })

theorem add_ecdsa_fst_keys (kr : KeyRing) (s : Signer) :
    (kr.add_ecdsa s).1.ecdsa_keys = (mapInsert s.public_key s kr.ecdsa_keys).1 := by
  cases h : (mapInsert s.public_key s kr.ecdsa_keys).2 <;>
    simp [KeyRing.add_ecdsa, h]

theorem regGet_set_self (reg : List (String × Chain)) (cid : String)
    (ch0 ch : Chain) (h : regGet reg cid = some ch0) :
    regGet (regSet reg cid ch) cid = some ch := by
  induction reg with
  | nil => simp [regGet] at h
  | cons hd t ih =>
    obtain ⟨i, c⟩ := hd
    by_cases hi : i = cid
    · simp [regGet, regSet, hi]
    · simp [regGet, regSet, hi] at h ⊢
      exact ih h

theorem regGet_set_other (reg : List (String × Chain)) (cid did : String)
    (ch : Chain) (h : cid ≠ did) :
    regGet (regSet reg did ch) cid = regGet reg cid := by
  induction reg with
  | nil => simp [regSet]
  | cons hd t ih =>
    obtain ⟨i, c⟩ := hd
    by_cases hi : i = did
    · subst hi
      have hne : i ≠ cid := fun hic => h hic.symm
      simp [regGet, regSet, hne]
    · simp [regGet, regSet, hi, ih]

theorem registerChains_preserves (s : Signer) (ids : List String)
    (reg : List (String × Chain)) (c : String) (ch : Chain)
    (hc : regGet reg c = some ch)
    (hs : mapGet s.public_key ch.keyring.ecdsa_keys = some s) :
    ∃ ch', regGet (registerChains s reg ids).1 c = some ch'
      ∧ mapGet s.public_key ch'.keyring.ecdsa_keys = some s := by
  induction ids generalizing reg ch with
  | nil => exact ⟨ch, hc, hs⟩
  | cons cid rest ih =>
    cases hg : regGet reg cid with
    | none => exact ⟨ch, by simp [registerChains, hg, hc], hs⟩
    | some chain =>
      have hkeys : mapGet s.public_key
          ((chain.keyring.add_ecdsa s).1.ecdsa_keys) = some s := by
        rw [add_ecdsa_fst_keys]
        exact mapGet_insert_self _ _ _
      by_cases hcc : c = cid
      · subst hcc
        have hget : regGet (regSet reg c { keyring := (chain.keyring.add_ecdsa s).1 }) c =
            some { keyring := (chain.keyring.add_ecdsa s).1 } :=
          regGet_set_self reg c chain _ hg
        cases he : (chain.keyring.add_ecdsa s).2 with
        | none =>
          simp only [registerChains, hg, he]
          exact ih _ _ hget hkeys
        | some e =>
          refine ⟨{ keyring := (chain.keyring.add_ecdsa s).1 }, ?_, hkeys⟩
          simp [registerChains, hg, he, hget]
      · have hget : regGet (regSet reg cid { keyring := (chain.keyring.add_ecdsa s).1 }) c =
            some ch := by rw [regGet_set_other _ _ _ _ hcc]; exact hc
        cases he : (chain.keyring.add_ecdsa s).2 with
        | none =>
          simp only [registerChains, hg, he]
          exact ih _ _ hget hs
        | some e =>
          exact ⟨ch, by simp [registerChains, hg, he, hget], hs⟩

theorem registerChains_append (s : Signer) (xs ys : List String)
    (reg : List (String × Chain)) :
    registerChains s reg (xs ++ ys) =
      match registerChains s reg xs with
      | (r, none) => registerChains s r ys
      | (r, some e) => (r, some e) := by
  induction xs generalizing reg with
  | nil => simp [registerChains]
  | cons cid rest ih =>
    cases hg : regGet reg cid with
    | none => simp [registerChains, hg]
    | some chain =>
      cases he : (chain.keyring.add_ecdsa s).2 with
      | none => simp only [List.cons_append, registerChains, hg, he]; exact ih _
      | some e => simp [registerChains, hg, he]

theorem registerChains_success_registered (s : Signer) (ids : List String)
    (reg : List (String × Chain))
    (hok : (registerChains s reg ids).2 = none) :
    ∀ c ∈ ids, ∃ ch, regGet (registerChains s reg ids).1 c = some ch
      ∧ mapGet s.public_key ch.keyring.ecdsa_keys = some s := by
  induction ids generalizing reg with
  | nil => intro c hc; simp at hc
  | cons cid rest ih =>
    intro c hc
    cases hg : regGet reg cid with
    | none => simp [registerChains, hg] at hok
    | some chain =>
      have hkeys : mapGet s.public_key
          ((chain.keyring.add_ecdsa s).1.ecdsa_keys) = some s := by
        rw [add_ecdsa_fst_keys]
        exact mapGet_insert_self _ _ _
      cases he : (chain.keyring.add_ecdsa s).2 with
      | some e => simp [registerChains, hg, he] at hok
      | none =>
        simp only [registerChains, hg, he] at hok ⊢
        rcases List.mem_cons.mp hc with hcc | hcr
        · subst hcc
          have hget : regGet (regSet reg c { keyring := (chain.keyring.add_ecdsa s).1 }) c =
              some { keyring := (chain.keyring.add_ecdsa s).1 } :=
            regGet_set_self reg c chain _ hg
          exact registerChains_preserves s rest _ c _ hget hkeys
        · exact ih _ hok c hcr

/-- C10: the software-backend loader registers the signer chain id by chain
id and propagates the first failure without rolling back. First conjunct:
with a single base64 entry whose file read, decode, parse and key derivation
succeed, `init` is exactly the registration loop over the configured chain
ids. Second conjunct: if the loop succeeds on a prefix of ids and then
fails, the whole run returns that first failure, yet every chain id of the
successful prefix still holds the signer in the final registry — multi-chain
registration is not atomic. -/
theorem c10_register_not_atomic :
    (∀ (env : SoftsignEnv) (reg : List (String × Chain)) (cfg : SoftsignConfig)
        (contents : String) (bs sk pkb : List Nat),
        cfg.key_format = some KeyFormat.base64 →
        env.readFile cfg.path = .ok contents →
        env.base64Decode (trimEndStr contents) = .ok bs →
        env.secretFromBytes bs = .ok sk →
        env.pubkeyOf sk = .ok pkb →
        softsignInit env reg [cfg] =
          registerChains
            { provider := .softSign, public_key := .consensusKey pkb,
              sign := env.signWith sk }
            reg cfg.chain_ids)
  ∧ (∀ (s : Signer) (reg r1 r2 : List (String × Chain)) (pre rest : List String)
        (e : Error),
        registerChains s reg pre = (r1, none) →
        registerChains s r1 rest = (r2, some e) →
        registerChains s reg (pre ++ rest) = (r2, some e)
        ∧ ∀ c ∈ pre, ∃ ch, regGet r2 c = some ch
            ∧ mapGet s.public_key ch.keyring.ecdsa_keys = some s) := by
  constructor
  · intro env reg cfg contents bs sk pkb hf hr hb hs hp
    simp [softsignInit, hf, hr, hb, hs, hp]
  · intro s reg r1 r2 pre rest e h1 h2
    constructor
    · rw [registerChains_append, h1]
      exact h2
    · intro c hc
      have hreg := registerChains_success_registered s pre reg (by rw [h1]) c hc
      rw [h1] at hreg
      obtain ⟨ch, hget, hmem⟩ := hreg
      have := registerChains_preserves s rest r1 c ch hget hmem
      rw [h2] at this
      exact this

/-- C9: validation in the software-backend loader. Zero config entries are
a no-op success leaving the registry untouched; two or more entries fail
with the "expected one [providers.softsign]" configuration error; a single
entry whose key format resolves to anything other than base64 (including
the default raw) fails with a configuration error naming the offending
format and the file path, without registering anything. -/
theorem c9_softsign_config_validation :
    (∀ (env : SoftsignEnv) (reg : List (String × Chain)),
        softsignInit env reg [] = (reg, none))
  ∧ (∀ (env : SoftsignEnv) (reg : List (String × Chain))
        (configs : List SoftsignConfig),
        2 ≤ configs.length →
        softsignInit env reg configs =
          (reg, some { kind := .configError,
                       msg := "expected one [providers.softsign] in config, found: "
                         ++ toString configs.length }))
  ∧ (∀ (env : SoftsignEnv) (reg : List (String × Chain)) (cfg : SoftsignConfig),
        cfg.key_format.getD KeyFormat.raw ≠ KeyFormat.base64 →
        softsignInit env reg [cfg] =
          (reg, some { kind := .configError,
                       msg := "unsupported encoding `"
                         ++ (cfg.key_format.getD KeyFormat.raw).as_str
                         ++ "` for ECDSA key: " ++ cfg.path })) := by
  refine ⟨fun env reg => rfl, ?_, ?_⟩
  · intro env reg configs h
    cases configs with
    | nil => simp at h
    | cons a t =>
      cases t with
      | nil => simp at h
      | cons b t2 => simp [softsignInit]
  · intro env reg cfg h
    cases hf : cfg.key_format.getD KeyFormat.raw with
    | base64 => exact absurd hf h
    | raw => simp [softsignInit, hf]
    | json => simp [softsignInit, hf]

/-- Environment fixture whose file read fails (never reached by the
validation cases). -/
def envFailW : SoftsignEnv :=
  { readFile := fun _ => .error "not found",
    base64Decode := fun _ => .error "bad",
    secretFromBytes := fun _ => .error "bad",
    pubkeyOf := fun _ => .error (),
    signWith := fun _ m => .ok m }

/-- Environment fixture where reading, decoding and key derivation all
succeed. -/
def envOkW : SoftsignEnv :=
  { readFile := fun _ => .ok "a2V5",
    base64Decode := fun _ => .ok [9],
    secretFromBytes := fun b => .ok b,
    pubkeyOf := fun _ => .ok [7],
    signWith := fun _ m => .ok m }

/-- Config entry with the (default) raw key format. -/
def cfgRawW : SoftsignConfig := { chain_ids := ["a"], key_format := none, path := "/k" }

/-- Config entry with the base64 key format. -/
def cfgB64W : SoftsignConfig :=
  { chain_ids := ["a"], key_format := some .base64, path := "/k" }

/-- Registry fixture with one chain and an empty keyring. -/
def regW : List (String × Chain) := [("a", { keyring := KeyRing.new fmtW })]

/-- Registry fixture after registering the fixture signer into chain a. -/
def regW1 : List (String × Chain) :=
  [("a", { keyring := ((KeyRing.new fmtW).add_ecdsa s1W).1 })]

/-- C9 (witness): the three validation outcomes on concrete configurations
and a concrete registry. -/
theorem c9_softsign_config_validation_witness :
    softsignInit envFailW regW [] = (regW, none)
  ∧ softsignInit envFailW regW [cfgRawW, cfgRawW] =
      (regW, some { kind := .configError,
                    msg := "expected one [providers.softsign] in config, found: 2" })
  ∧ softsignInit envFailW regW [cfgRawW] =
      (regW, some { kind := .configError,
                    msg := "unsupported encoding `raw` for ECDSA key: /k" }) :=
  ⟨c9_softsign_config_validation.1 envFailW regW,
   c9_softsign_config_validation.2.1 envFailW regW [cfgRawW, cfgRawW] (by decide),
   c9_softsign_config_validation.2.2 envFailW regW cfgRawW (by decide)⟩

/-- C10 (witness): concrete non-atomic run. Registering under chain ids
[a, x] against a registry holding only chain a succeeds on a, fails on the
unknown chain x, and the returned registry still holds the signer under a;
plus the concrete bridge from `softsignInit` to the registration loop. -/
theorem c10_register_not_atomic_witness :
    registerChains s1W regW ["a", "x"] =
      (regW1, some { kind := .configError, msg := "unknown chain id: x" })
  ∧ (∃ ch, regGet regW1 "a" = some ch
      ∧ mapGet s1W.public_key ch.keyring.ecdsa_keys = some s1W)
  ∧ softsignInit envOkW regW [cfgB64W] =
      registerChains
        { provider := .softSign, public_key := .consensusKey [7],
          sign := envOkW.signWith [9] }
        regW ["a"] :=
  ⟨(c10_register_not_atomic.2 s1W regW regW1 regW1 ["a"] ["x"]
      { kind := .configError, msg := "unknown chain id: x" } rfl rfl).1,
   (c10_register_not_atomic.2 s1W regW regW1 regW1 ["a"] ["x"]
      { kind := .configError, msg := "unknown chain id: x" } rfl rfl).2 "a" (by simp),
   c10_register_not_atomic.1 envOkW regW cfgB64W "a2V5" [9] [9] [7] rfl rfl rfl rfl rfl⟩
